import Mathlib

/-!
mongo-client-connect: a verification development

Shallow embedding of `lib/mongo-client-connect.js`.

Modelling conventions.

* The two module-level objects `dbConnections` and `dbCollections` are the fields of `State`.
  A JavaScript object used as a map is the list of its own properties in `Object.keys` order;
  `objGet` is the read `o[k]` and `objSet` the write `o[k] = v`. Only own properties are
  modelled: property names inherited from `Object.prototype` are not keys of the model.
* The driver is a parameter. `MongoClient.connect(uri)` returns a promise whose settlement
  (rejected with a reason, or fulfilled with a `Db`) is fixed by the driver at the invocation;
  which invocation it is (the number of earlier ones) is passed to the driver, so a driver may
  fail at one time and succeed at another. `db.collection(name)` returns a new object at each
  invocation. Every invocation of the driver is recorded in `connectCalls` / `collectionCalls`.
* A function of the module is embedded by its synchronous part, which returns the promise the
  JavaScript call returns (`Single`, `Returned`), and by the callbacks it registers with `then`,
  which run when that promise is settled (`settleSingle`, `promiseAll`, `await`).
* Promises, `Db` and `Collection` objects carry an `ident`, so that equality in the model is
  object identity.
-/

set_option autoImplicit false

namespace MongoClientConnect

/-! ## JavaScript objects used as maps -/

/-- The read `o[key]` of an own property; `none` is `undefined`. -/
def objGet {α : Type} : List (String × α) → String → Option α
  | [], _ => none
  | (k, v) :: rest, key => if k = key then some v else objGet rest key

/-- The write `o[key] = v`: an existing property keeps its place, a new one goes last. -/
def objSet {α : Type} : List (String × α) → String → α → List (String × α)
  | [], key, v => [(key, v)]
  | (k, w) :: rest, key, v =>
    if k = key then (k, v) :: rest else (k, w) :: objSet rest key v

/-- The array `Object.keys(o)`. -/
def objKeys {α : Type} (o : List (String × α)) : List String :=
  o.map Prod.fst

/-! ## The driver and its handles -/

/-- A connection handle of the driver: the module reads `databaseName` and calls `collection`. -/
structure Db where
  ident : Nat
  databaseName : String
deriving DecidableEq, Repr

/-- A collection handle, the object `db.collection(collectionName)` returned. -/
structure Collection where
  ident : Nat
  db : Db
  collectionName : String
deriving DecidableEq, Repr

/-- How a promise of a connection settles. -/
inductive Settlement where
  | rejected (reason : String)
  | fulfilled (db : Db)
deriving DecidableEq, Repr

/-- The promise `MongoClient.connect(uri)` returns. -/
structure ConnPromise where
  ident : Nat
  settlement : Settlement
deriving DecidableEq, Repr

/-- What the driver answers to one connection attempt. -/
inductive ConnectResult where
  | failure (reason : String)
  | success (databaseName : String)
deriving DecidableEq, Repr

/-- The driver: the answer to the `n`-th invocation of `MongoClient.connect`, made with `uri`. -/
abbrev Driver := Nat → String → ConnectResult

/-! ## The state of the module -/

/-- The two caches of the module and the record of the driver invocations. -/
structure State where
  dbConnections : List (String × ConnPromise)
  dbCollections : List (String × Collection)
  connectCalls : List String
  collectionCalls : List (Db × String)
deriving DecidableEq, Repr

/-- The state at module load: `const dbConnections = {}; const dbCollections = {};`. -/
def State.empty : State :=
  { dbConnections := [], dbCollections := [], connectCalls := [], collectionCalls := [] }

/-- The call `MongoClient.connect(uri)` made in state `s`: the promise it returns. -/
def mongoClientConnect (drv : Driver) (uri : String) (s : State) : ConnPromise :=
  { ident := s.connectCalls.length
    settlement :=
      match drv s.connectCalls.length uri with
      | .failure reason => .rejected reason
      | .success name => .fulfilled { ident := s.connectCalls.length, databaseName := name } }

/-! ## Argument values -/

/-- The values the `collections` argument can take. `foreign` is an object whose constructor is
neither `Object` nor `Array` (an instance of a class). -/
inductive Collections where
  | undefined
  | null
  | boolean (b : Bool)
  | number (n : Int)
  | string (s : String)
  | array (names : List String)
  | object (aliases : List (String × String))
  | foreign (className : String)
deriving DecidableEq, Repr

/-- The values of the first argument of `connect`. -/
inductive UriArg where
  | string (uri : String)
  | array (uris : List String)
  | object (byUri : List (String × Collections))
deriving DecidableEq, Repr

/-- JavaScript truthiness, as tested by `&& collections`. -/
def Collections.truthy : Collections → Bool
  | .undefined => false
  | .null => false
  | .boolean b => b
  | .number n => n != 0
  | .string s => s != ""
  | .array _ => true
  | .object _ => true
  | .foreign _ => true

/-- The constructors a value is compared with. -/
inductive Ctor where
  | Object
  | Array
  | String
  | Number
  | Boolean
  | Other
deriving DecidableEq, Repr

/-- The outcome of a synchronous call: a value, or a thrown `TypeError`. -/
inductive Completion (α : Type) where
  | threw (message : String)
  | returned (value : α)
deriving DecidableEq, Repr

/-- The expression `collections.constructor`; it throws on `undefined` and `null`. -/
def Collections.ctor : Collections → Completion Ctor
  | .undefined => .threw "Cannot read properties of undefined (reading constructor)"
  | .null => .threw "Cannot read properties of null (reading constructor)"
  | .boolean _ => .returned .Boolean
  | .number _ => .returned .Number
  | .string _ => .returned .String
  | .array _ => .returned .Array
  | .object _ => .returned .Object
  | .foreign _ => .returned .Other

/-! ## Promises returned by the module -/

/-- A promise the module returns for one connection string: the cached promise itself
(`Promise.resolve` of a promise is that promise), or that promise followed by `then` with the
callback of `getCollectionsByArray` or of `getCollectionsByObject`. -/
inductive Single where
  | conn (p : ConnPromise)
  | thenArray (p : ConnPromise) (names : List String)
  | thenObject (p : ConnPromise) (aliases : List (String × String))
deriving DecidableEq, Repr

/-- An element of the array given to `Promise.all`. -/
inductive Item where
  | undefined
  | promise (q : Single)
deriving DecidableEq, Repr

/-- What a call of `connect` returns. -/
inductive Returned where
  | undefined
  | promise (q : Single)
  | all (items : List Item)
deriving DecidableEq, Repr

/-- The value a promise of the module is fulfilled with. -/
inductive Value where
  | undefined
  | db (d : Db)
  | list (handles : List Collection)
  | map (handles : List (String × Collection))
deriving DecidableEq, Repr

/-- A settled promise. -/
inductive Outcome (α : Type) where
  | rejected (reason : String)
  | resolved (value : α)
deriving DecidableEq, Repr

/-! ## The functions of the module: synchronous parts -/

/-- The function `dbConnect` (lines 38-44): the promise returned and the state after the call. -/
def dbConnect (drv : Driver) (connectionURI : String) (s : State) : ConnPromise × State :=
  match objGet s.dbConnections connectionURI with
  | some p => (p, s)
  | none =>
    let p := mongoClientConnect drv connectionURI s
    (p, { s with
            dbConnections := objSet s.dbConnections connectionURI p
            connectCalls := s.connectCalls ++ [connectionURI] })

/-- The array `connectionURIs.map(dbConnect)`. -/
def mapDbConnect (drv : Driver) : List String → State → List ConnPromise × State
  | [], s => ([], s)
  | u :: rest, s =>
    let r := dbConnect drv u s
    let rs := mapDbConnect drv rest r.2
    (r.1 :: rs.1, rs.2)

/-- The function `dbConnectMany` (lines 29-31): the array given to `Promise.all`. -/
def dbConnectMany (drv : Driver) (connectionURIs : List String) (s : State) :
    List Item × State :=
  let r := mapDbConnect drv connectionURIs s
  (r.1.map (fun p => Item.promise (.conn p)), r.2)

/-- The function `getCollectionsByObject` (lines 74-81), up to `then`. -/
def getCollectionsByObject (drv : Driver) (connectionURI : String)
    (collections : List (String × String)) (s : State) : Single × State :=
  let r := dbConnect drv connectionURI s
  (.thenObject r.1 collections, r.2)

/-- The function `getCollectionsByArray` (lines 89-94), up to `then`. -/
def getCollectionsByArray (drv : Driver) (connectionURI : String)
    (collections : List String) (s : State) : Single × State :=
  let r := dbConnect drv connectionURI s
  (.thenArray r.1 collections, r.2)

/-- The function `getCollections` (lines 61-66); `none` is the `undefined` it returns when
neither branch is taken. -/
def getCollections (drv : Driver) (connectionURI : String) (collections : Collections)
    (s : State) : Completion (Option Single) × State :=
  match collections.ctor with
  | .threw e => (.threw e, s)
  | .returned _ =>
    match collections with
    | .object aliases =>
      let r := getCollectionsByObject drv connectionURI aliases s
      (.returned (some r.1), r.2)
    | .array names =>
      let r := getCollectionsByArray drv connectionURI names s
      (.returned (some r.1), r.2)
    | _ => (.returned none, s)

/-- An element of the array given to `Promise.all`, from what `getCollections` returned. -/
def Item.ofOption : Option Single → Item
  | none => .undefined
  | some q => .promise q

/-- The array `Object.keys(m).map(uri => getCollections(uri, m[uri]))`, over the keys `keys`;
a `TypeError` thrown by a call of `getCollections` ends the iteration. -/
def mapGetCollections (drv : Driver) (m : List (String × Collections)) :
    List String → State → Completion (List Item) × State
  | [], s => (.returned [], s)
  | u :: rest, s =>
    match getCollections drv u ((objGet m u).getD .undefined) s with
    | (.threw e, s1) => (.threw e, s1)
    | (.returned r, s1) =>
      match mapGetCollections drv m rest s1 with
      | (.threw e, s2) => (.threw e, s2)
      | (.returned items, s2) => (.returned (Item.ofOption r :: items), s2)

/-- The function `dbConnectManyAndGetCollections` (lines 51-53): the array given to
`Promise.all`. -/
def dbConnectManyAndGetCollections (drv : Driver) (m : List (String × Collections))
    (s : State) : Completion (List Item) × State :=
  mapGetCollections drv m (objKeys m) s

/-- What `getCollections` returned, as a value returned by `connect`. -/
def Returned.ofOption : Option Single → Returned
  | none => .undefined
  | some q => .promise q

/-- The function `connect` (lines 101-110), the export of the module. An omitted `collections`
is `undefined`. -/
def connect (drv : Driver) (connectionURI : UriArg) (collections : Collections) (s : State) :
    Completion Returned × State :=
  match connectionURI with
  | .object m =>
    match dbConnectManyAndGetCollections drv m s with
    | (.threw e, s1) => (.threw e, s1)
    | (.returned items, s1) => (.returned (.all items), s1)
  | .array uris =>
    let r := dbConnectMany drv uris s
    (.returned (.all r.1), r.2)
  | .string uri =>
    if collections.truthy then
      match getCollections drv uri collections s with
      | (.threw e, s1) => (.threw e, s1)
      | (.returned r, s1) => (.returned (Returned.ofOption r), s1)
    else
      let r := dbConnect drv uri s
      (.returned (.promise (.conn r.1)), r.2)

/-! ## The callbacks registered with `then` -/

/-- The statements of lines 76 and 91 for one collection name:
`dbCollections[k] = dbCollections[k] || db.collection(name)` with `k = db.databaseName + name`,
followed by the read of `dbCollections[k]`, which is the value just written. -/
def cachedCollection (db : Db) (collectionName : String) (s : State) : Collection × State :=
  let key := db.databaseName ++ collectionName
  match objGet s.dbCollections key with
  | some h => (h, { s with dbCollections := objSet s.dbCollections key h })
  | none =>
    let h : Collection :=
      { ident := s.collectionCalls.length, db := db, collectionName := collectionName }
    (h, { s with
            dbCollections := objSet s.dbCollections key h
            collectionCalls := s.collectionCalls ++ [(db, collectionName)] })

/-- The callback of `getCollectionsByArray` (lines 90-93): `collections.map(...)` on `db`. -/
def arrayThen (db : Db) : List String → State → List Collection × State
  | [], s => ([], s)
  | name :: rest, s =>
    let r := cachedCollection db name s
    let rs := arrayThen db rest r.2
    (r.1 :: rs.1, rs.2)

/-- The `reduce` of lines 75-79 over the keys `keys` of `collections`, from the accumulator
`acc`. The branch of an alias without a value is not reached for the keys of `collections`. -/
def objectReduce (db : Db) (collections : List (String × String)) :
    List String → List (String × Collection) → State → List (String × Collection) × State
  | [], acc, s => (acc, s)
  | collectionAlias :: rest, acc, s =>
    match objGet collections collectionAlias with
    | none => objectReduce db collections rest acc s
    | some name =>
      let r := cachedCollection db name s
      objectReduce db collections rest (objSet acc collectionAlias r.1) r.2

/-- The callback of `getCollectionsByObject` (lines 75-79) on `db`. -/
def objectThen (db : Db) (collections : List (String × String)) (s : State) :
    List (String × Collection) × State :=
  objectReduce db collections (objKeys collections) [] s

/-- The settlement of a promise for one connection string, in state `s`: a rejection of the
connection promise is passed on, and a fulfilment runs the `then` callback, if there is one. -/
def settleSingle : Single → State → Outcome Value × State
  | .conn p, s =>
    match p.settlement with
    | .rejected e => (.rejected e, s)
    | .fulfilled db => (.resolved (.db db), s)
  | .thenArray p names, s =>
    match p.settlement with
    | .rejected e => (.rejected e, s)
    | .fulfilled db =>
      let r := arrayThen db names s
      (.resolved (.list r.1), r.2)
  | .thenObject p aliases, s =>
    match p.settlement with
    | .rejected e => (.rejected e, s)
    | .fulfilled db =>
      let r := objectThen db aliases s
      (.resolved (.map r.1), r.2)

/-- The settlement of an element of the array given to `Promise.all`; a value that is not a
promise counts as fulfilled with itself. -/
def settleItem : Item → State → Outcome Value × State
  | .undefined, s => (.resolved .undefined, s)
  | .promise q, s => settleSingle q s

/-! ## `Promise.all` -/

/-- The elements of `items` settled one after the other in the order `order` of their indices:
the outcome of each, with its index, and the state after all of them. -/
def settleInOrder (items : List Item) : List Nat → State → List (Nat × Outcome Value) × State
  | [], s => ([], s)
  | i :: rest, s =>
    match items[i]? with
    | none => settleInOrder items rest s
    | some it =>
      let r := settleItem it s
      let rs := settleInOrder items rest r.2
      ((i, r.1) :: rs.1, rs.2)

/-- The reason of the first rejection among the outcomes, in the order they occurred. -/
def firstRejection : List (Nat × Outcome Value) → Option String
  | [] => none
  | (_, .rejected e) :: _ => some e
  | (_, .resolved _) :: rest => firstRejection rest

/-- The value the element of index `i` was fulfilled with. -/
def valueAt : List (Nat × Outcome Value) → Nat → Option Value
  | [], _ => none
  | (j, .resolved v) :: rest, i => if j = i then some v else valueAt rest i
  | (j, .rejected _) :: rest, i => if j = i then none else valueAt rest i

/-- The order in which the elements of an array of `n` promises settle, when the element of
index `i` settles at time `rank i` (elements of equal time, in the order of the array). -/
def settleOrder (rank : Nat → Nat) (n : Nat) : List Nat :=
  (List.range n).insertionSort (fun i j => rank i ≤ rank j)

/-- The promise `Promise.all(items)` once every element has settled, the element of index `i`
at time `rank i`: rejected with the reason of the first element to be rejected, or fulfilled
with the values of all elements in the order of `items`. The state is the one reached when all
callbacks have run. -/
def promiseAll (rank : Nat → Nat) (items : List Item) (s : State) :
    Outcome (List Value) × State :=
  let r := settleInOrder items (settleOrder rank items.length) s
  match firstRejection r.1 with
  | some e => (.rejected e, r.2)
  | none => (.resolved ((List.range items.length).filterMap (valueAt r.1)), r.2)

/-- What the caller of `connect` observes once the returned value has settled. -/
inductive Awaited where
  | undefined
  | rejected (reason : String)
  | resolved (value : Value)
  | resolvedAll (values : List Value)
deriving DecidableEq, Repr

/-- The value returned by `connect`, awaited. -/
def await (rank : Nat → Nat) : Returned → State → Awaited × State
  | .undefined, s => (.undefined, s)
  | .promise q, s =>
    match settleSingle q s with
    | (.rejected e, s1) => (.rejected e, s1)
    | (.resolved v, s1) => (.resolved v, s1)
  | .all items, s =>
    match promiseAll rank items s with
    | (.rejected e, s1) => (.rejected e, s1)
    | (.resolved vs, s1) => (.resolvedAll vs, s1)

/-! ## Runs of the module -/

/-- One step of a run of the module: a call of the exported function, or the settlement of a
promise the module returned (which runs its callback). -/
inductive Step where
  | call (connectionURI : UriArg) (collections : Collections)
  | settle (q : Single)
deriving DecidableEq, Repr

/-- The state after one step. -/
def step (drv : Driver) : Step → State → State
  | .call x c, s => (connect drv x c s).2
  | .settle q, s => (settleSingle q s).2

/-- The state after a sequence of steps. -/
def run (drv : Driver) (steps : List Step) (s : State) : State :=
  steps.foldl (fun st e => step drv e st) s

/-- The state records one invocation of the driver's connect for each cached connection string
and none for the others, as in every state reached from the state at module load. -/
def Consistent (s : State) : Prop :=
  ∀ u : String, s.connectCalls.count u = if (objGet s.dbConnections u).isSome then 1 else 0

/-- The function `getCollections` called and its result awaited, with no other step of the module
in between. -/
def getCollectionsAwaited (drv : Driver) (connectionURI : String) (collections : Collections)
    (s : State) : Completion Awaited × State :=
  match getCollections drv connectionURI collections s with
  | (.threw e, s1) => (.threw e, s1)
  | (.returned none, s1) => (.returned .undefined, s1)
  | (.returned (some q), s1) =>
    match settleSingle q s1 with
    | (.rejected e, s2) => (.returned (.rejected e), s2)
    | (.resolved v, s2) => (.returned (.resolved v), s2)

/-- The caches of `t` extend those of `s`: every key bound in a cache of `s` is bound to the
same value in `t`, the driver's connect was not invoked between `s` and `t` for a connection
string cached in `s`, and `t` is consistent if `s` is. -/
def Ext (s t : State) : Prop :=
  (∀ k p, objGet s.dbConnections k = some p → objGet t.dbConnections k = some p) ∧
  (∀ k h, objGet s.dbCollections k = some h → objGet t.dbCollections k = some h) ∧
  (∀ u, (objGet s.dbConnections u).isSome → t.connectCalls.count u = s.connectCalls.count u) ∧
  (Consistent s → Consistent t)

/-- The exported function called and the value it returns awaited, the element of index `i` of
an aggregate settling at time `rank i`, with no other step of the module in between. -/
def connectAwaited (drv : Driver) (rank : Nat → Nat) (connectionURI : UriArg)
    (collections : Collections) (s : State) : Completion Awaited × State :=
  match connect drv connectionURI collections s with
  | (.threw e, s1) => (.threw e, s1)
  | (.returned r, s1) => (.returned (await rank r s1).1, (await rank r s1).2)

/-- Every key bound in a cache of `s` is bound to the same value in the same cache of `t`. -/
def CachesKept (s t : State) : Prop :=
  (∀ k p, objGet s.dbConnections k = some p → objGet t.dbConnections k = some p) ∧
  (∀ k h, objGet s.dbCollections k = some h → objGet t.dbCollections k = some h)

/-- A driver for the examples: the last segment of the connection string is the database name,
and the host `down` is unreachable. -/
def exampleDriver : Driver := fun _ uri =>
  if uri = "mongodb://h/a" then .success "a"
  else if uri = "mongodb://h/ab" then .success "ab"
  else if uri = "mongodb://h/shop" then .success "shop"
  else if uri = "mongodb://replica/shop" then .success "shop"
  else .failure "unreachable"

/-- The state after `getCollections('mongodb://h/a', ['bc'])` has settled, from module load. -/
def afterFirstRequest : State :=
  (getCollectionsAwaited exampleDriver "mongodb://h/a" (.array ["bc"]) State.empty).2

theorem objGet_objSet_self {α : Type} (o : List (String × α)) (k : String) (v : α) :
    objGet (objSet o k v) k = some v := by
  induction o with
  | nil => simp [objSet, objGet]
  | cons e rest ih =>
    obtain ⟨k0, w⟩ := e
    by_cases h : k0 = k
    · simp [objSet, objGet, h]
    · simp [objSet, objGet, h, ih]

theorem objGet_objSet_ne {α : Type} (o : List (String × α)) (k k1 : String) (v : α)
    (hne : k ≠ k1) : objGet (objSet o k v) k1 = objGet o k1 := by
  induction o with
  | nil => simp [objSet, objGet, hne]
  | cons e rest ih =>
    obtain ⟨k0, w⟩ := e
    by_cases h : k0 = k
    · subst h
      simp [objSet, objGet, hne]
    · by_cases h1 : k0 = k1
      · subst h1
        simp [objSet, objGet, h]
      · simp [objSet, objGet, h, h1, ih]

theorem objSet_of_objGet {α : Type} (o : List (String × α)) (k : String) (v : α)
    (hget : objGet o k = some v) : objSet o k v = o := by
  induction o with
  | nil => simp [objGet] at hget
  | cons e rest ih =>
    obtain ⟨k0, w⟩ := e
    by_cases h : k0 = k
    · simp [objGet, h] at hget
      simp [objSet, h, hget]
    · simp [objGet, h] at hget
      simp [objSet, h, ih hget]

theorem Ext.refl (s : State) : Ext s s :=
  ⟨fun _ _ h => h, fun _ _ h => h, fun _ _ => rfl, fun h => h⟩

theorem Ext.trans {s t r : State} (h1 : Ext s t) (h2 : Ext t r) : Ext s r := by
  obtain ⟨a1, b1, c1, d1⟩ := h1
  obtain ⟨a2, b2, c2, d2⟩ := h2
  refine ⟨fun k p h => a2 k p (a1 k p h), fun k h hk => b2 k h (b1 k h hk), ?_, fun h => d2 (d1 h)⟩
  intro u hu
  have hu1 : (objGet t.dbConnections u).isSome := by
    cases hg : objGet s.dbConnections u with
    | none => simp [hg] at hu
    | some p => simp [a1 u p hg]
  rw [c2 u hu1, c1 u hu]

/-! ### `dbConnect` -/

theorem dbConnect_cached (drv : Driver) (u : String) (s : State) (p : ConnPromise)
    (h : objGet s.dbConnections u = some p) : dbConnect drv u s = (p, s) := by
  simp [dbConnect, h]

theorem dbConnect_fresh (drv : Driver) (u : String) (s : State)
    (h : objGet s.dbConnections u = none) :
    dbConnect drv u s =
      (mongoClientConnect drv u s,
        { s with
          dbConnections := objSet s.dbConnections u (mongoClientConnect drv u s)
          connectCalls := s.connectCalls ++ [u] }) := by
  simp [dbConnect, h]

theorem dbConnect_stored (drv : Driver) (u : String) (s : State) :
    objGet (dbConnect drv u s).2.dbConnections u = some (dbConnect drv u s).1 := by
  cases h : objGet s.dbConnections u with
  | none => simp [dbConnect_fresh drv u s h, objGet_objSet_self]
  | some p => simp [dbConnect_cached drv u s p h, h]

theorem ext_dbConnect (drv : Driver) (u : String) (s : State) : Ext s (dbConnect drv u s).2 := by
  cases h : objGet s.dbConnections u with
  | some p =>
    rw [dbConnect_cached drv u s p h]
    exact Ext.refl s
  | none =>
    rw [dbConnect_fresh drv u s h]
    refine ⟨?_, fun _ _ hk => hk, ?_, ?_⟩
    · intro k p hk
      have hne : u ≠ k := by
        intro e
        subst e
        rw [h] at hk
        cases hk
      simpa [objGet_objSet_ne _ u k _ hne] using hk
    · intro v hv
      have hne : u ≠ v := by
        intro e
        subst e
        simp [h] at hv
      simp [List.count_append, List.count_singleton, hne]
    · intro hc v
      by_cases hv : u = v
      · subst hv
        have h0 := hc u
        simp [h] at h0
        simp [List.count_append, objGet_objSet_self, h0]
      · have h0 := hc v
        simp only [objGet_objSet_ne _ u v _ hv]
        simp [List.count_append, List.count_singleton, hv, h0]

/-! ### The collection cache -/

theorem cachedCollection_hit (db : Db) (c : String) (s : State) (h : Collection)
    (hget : objGet s.dbCollections (db.databaseName ++ c) = some h) :
    cachedCollection db c s = (h, s) := by
  simp [cachedCollection, hget, objSet_of_objGet _ _ _ hget]

theorem cachedCollection_miss (db : Db) (c : String) (s : State)
    (hget : objGet s.dbCollections (db.databaseName ++ c) = none) :
    cachedCollection db c s =
      ({ ident := s.collectionCalls.length, db := db, collectionName := c },
        { s with
          dbCollections := objSet s.dbCollections (db.databaseName ++ c)
            { ident := s.collectionCalls.length, db := db, collectionName := c }
          collectionCalls := s.collectionCalls ++ [(db, c)] }) := by
  simp [cachedCollection, hget]

theorem ext_cachedCollection (db : Db) (c : String) (s : State) :
    Ext s (cachedCollection db c s).2 := by
  cases hget : objGet s.dbCollections (db.databaseName ++ c) with
  | some h =>
    rw [cachedCollection_hit db c s h hget]
    exact Ext.refl s
  | none =>
    rw [cachedCollection_miss db c s hget]
    refine ⟨fun _ _ hk => hk, ?_, fun _ _ => rfl, fun hc => hc⟩
    intro k h hk
    have hne : db.databaseName ++ c ≠ k := by
      intro e
      subst e
      rw [hget] at hk
      cases hk
    simpa [objGet_objSet_ne _ _ k _ hne] using hk

/-! ### Every function of the module extends the caches -/

theorem ext_arrayThen (db : Db) (names : List String) (s : State) :
    Ext s (arrayThen db names s).2 := by
  induction names generalizing s with
  | nil => exact Ext.refl s
  | cons c rest ih =>
    simp only [arrayThen]
    exact Ext.trans (ext_cachedCollection db c s) (ih _)

theorem ext_objectReduce (db : Db) (m : List (String × String)) (keys : List String)
    (acc : List (String × Collection)) (s : State) :
    Ext s (objectReduce db m keys acc s).2 := by
  induction keys generalizing acc s with
  | nil => exact Ext.refl s
  | cons a rest ih =>
    simp only [objectReduce]
    cases objGet m a with
    | none => exact ih acc s
    | some c => exact Ext.trans (ext_cachedCollection db c s) (ih _ _)

theorem ext_objectThen (db : Db) (m : List (String × String)) (s : State) :
    Ext s (objectThen db m s).2 :=
  ext_objectReduce db m (objKeys m) [] s

theorem ext_settleSingle (q : Single) (s : State) : Ext s (settleSingle q s).2 := by
  cases q with
  | conn p =>
    simp only [settleSingle]
    cases p.settlement <;> exact Ext.refl s
  | thenArray p names =>
    simp only [settleSingle]
    cases p.settlement with
    | rejected e => exact Ext.refl s
    | fulfilled db => exact ext_arrayThen db names s
  | thenObject p m =>
    simp only [settleSingle]
    cases p.settlement with
    | rejected e => exact Ext.refl s
    | fulfilled db => exact ext_objectThen db m s

theorem ext_settleItem (it : Item) (s : State) : Ext s (settleItem it s).2 := by
  cases it with
  | undefined => exact Ext.refl s
  | promise q => exact ext_settleSingle q s

theorem ext_settleInOrder (items : List Item) (order : List Nat) (s : State) :
    Ext s (settleInOrder items order s).2 := by
  induction order generalizing s with
  | nil => exact Ext.refl s
  | cons i rest ih =>
    simp only [settleInOrder]
    cases items[i]? with
    | none => exact ih s
    | some it => exact Ext.trans (ext_settleItem it s) (ih _)

theorem promiseAll_state (rank : Nat → Nat) (items : List Item) (s : State) :
    (promiseAll rank items s).2 =
      (settleInOrder items (settleOrder rank items.length) s).2 := by
  simp only [promiseAll]
  cases firstRejection (settleInOrder items (settleOrder rank items.length) s).1 <;> rfl

theorem ext_promiseAll (rank : Nat → Nat) (items : List Item) (s : State) :
    Ext s (promiseAll rank items s).2 := by
  rw [promiseAll_state]
  exact ext_settleInOrder items _ s

theorem ext_await (rank : Nat → Nat) (r : Returned) (s : State) : Ext s (await rank r s).2 := by
  cases r with
  | undefined => exact Ext.refl s
  | promise q =>
    have h := ext_settleSingle q s
    simp only [await]
    cases hq : settleSingle q s with
    | mk o s1 =>
      rw [hq] at h
      cases o <;> exact h
  | all items =>
    have h := ext_promiseAll rank items s
    simp only [await]
    cases hq : promiseAll rank items s with
    | mk o s1 =>
      rw [hq] at h
      cases o <;> exact h

theorem ext_mapDbConnect (drv : Driver) (uris : List String) (s : State) :
    Ext s (mapDbConnect drv uris s).2 := by
  induction uris generalizing s with
  | nil => exact Ext.refl s
  | cons u rest ih =>
    simp only [mapDbConnect]
    exact Ext.trans (ext_dbConnect drv u s) (ih _)

theorem ext_getCollections (drv : Driver) (u : String) (c : Collections) (s : State) :
    Ext s (getCollections drv u c s).2 := by
  cases c <;>
    first
      | exact Ext.refl s
      | exact ext_dbConnect drv u s

theorem ext_mapGetCollections (drv : Driver) (m : List (String × Collections))
    (keys : List String) (s : State) : Ext s (mapGetCollections drv m keys s).2 := by
  induction keys generalizing s with
  | nil => exact Ext.refl s
  | cons u rest ih =>
    have h1 := ext_getCollections drv u ((objGet m u).getD .undefined) s
    simp only [mapGetCollections]
    cases hg : getCollections drv u ((objGet m u).getD .undefined) s with
    | mk o s1 =>
      rw [hg] at h1
      cases o with
      | threw e => exact h1
      | returned r =>
        have h2 := ih s1
        simp only []
        cases hm : mapGetCollections drv m rest s1 with
        | mk o2 s2 =>
          rw [hm] at h2
          cases o2 <;> exact Ext.trans h1 h2

theorem ext_connect (drv : Driver) (x : UriArg) (c : Collections) (s : State) :
    Ext s (connect drv x c s).2 := by
  cases x with
  | object m =>
    have h := ext_mapGetCollections drv m (objKeys m) s
    simp only [connect, dbConnectManyAndGetCollections]
    cases hm : mapGetCollections drv m (objKeys m) s with
    | mk o s1 =>
      rw [hm] at h
      cases o <;> exact h
  | array uris => exact ext_mapDbConnect drv uris s
  | string u =>
    simp only [connect]
    by_cases ht : c.truthy = true
    · have h := ext_getCollections drv u c s
      simp only [ht, if_true]
      cases hg : getCollections drv u c s with
      | mk o s1 =>
        rw [hg] at h
        cases o <;> exact h
    · simp only [ht]
      exact ext_dbConnect drv u s

theorem ext_step (drv : Driver) (e : Step) (s : State) : Ext s (step drv e s) := by
  cases e with
  | call x c => exact ext_connect drv x c s
  | settle q => exact ext_settleSingle q s

theorem ext_run (drv : Driver) (steps : List Step) (s : State) : Ext s (run drv steps s) := by
  induction steps generalizing s with
  | nil => exact Ext.refl s
  | cons e rest ih =>
    simp only [run, List.foldl_cons]
    exact Ext.trans (ext_step drv e s) (ih _)

theorem ext_getCollectionsAwaited (drv : Driver) (u : String) (c : Collections) (s : State) :
    Ext s (getCollectionsAwaited drv u c s).2 := by
  have h := ext_getCollections drv u c s
  simp only [getCollectionsAwaited]
  cases hg : getCollections drv u c s with
  | mk o s1 =>
    rw [hg] at h
    cases o with
    | threw e => exact h
    | returned r =>
      cases r with
      | none => exact h
      | some q =>
        have h2 := ext_settleSingle q s1
        simp only []
        cases hq : settleSingle q s1 with
        | mk o2 s2 =>
          rw [hq] at h2
          cases o2 <;> exact Ext.trans h h2

theorem dbConnect_again (drv : Driver) (u : String) (s : State) (between : List Step) :
    dbConnect drv u (run drv between (dbConnect drv u s).2) =
      ((dbConnect drv u s).1, run drv between (dbConnect drv u s).2) :=
  dbConnect_cached drv u _ _
    ((ext_run drv between (dbConnect drv u s).2).1 u _ (dbConnect_stored drv u s))

theorem count_run_of_cached (drv : Driver) (u : String) (s : State) (between : List Step) :
    (run drv between (dbConnect drv u s).2).connectCalls.count u =
      (dbConnect drv u s).2.connectCalls.count u := by
  apply (ext_run drv between (dbConnect drv u s).2).2.2.1 u
  simp [dbConnect_stored]

/-- C2: when the promise a first `dbConnect(u)` returns is rejected, every `dbConnect(u)` made
after any further steps of the module returns that same promise, rejected with the same reason,
invokes no connect and changes nothing, the driver's connect has not been invoked for `u` in
between, and the rejected promise is still the entry cached under `u`. -/
theorem dbConnect_sticky_failure (drv : Driver) (u : String) (s : State) (reason : String)
    (later : List Step) (hfail : (dbConnect drv u s).1.settlement = .rejected reason) :
    (dbConnect drv u (run drv later (dbConnect drv u s).2)).1 = (dbConnect drv u s).1 ∧
    (dbConnect drv u (run drv later (dbConnect drv u s).2)).1.settlement = .rejected reason ∧
    (dbConnect drv u (run drv later (dbConnect drv u s).2)).2 =
      run drv later (dbConnect drv u s).2 ∧
    (run drv later (dbConnect drv u s).2).connectCalls.count u =
      (dbConnect drv u s).2.connectCalls.count u ∧
    objGet (run drv later (dbConnect drv u s).2).dbConnections u = some (dbConnect drv u s).1 := by
  refine ⟨?_, ?_, ?_, count_run_of_cached drv u s later,
    (ext_run drv later (dbConnect drv u s).2).1 u _ (dbConnect_stored drv u s)⟩
  · rw [dbConnect_again]
  · rw [dbConnect_again]
    exact hfail
  · rw [dbConnect_again]

/-- Witness of C2: a driver that fails once and would succeed afterwards; the failure of the
first call is what a later call yields, after a retry through `connect`. -/
theorem dbConnect_sticky_failure_witness :
    (dbConnect (fun n _ => if n = 0 then .failure "unreachable" else .success "shop")
      "mongodb://h/shop" State.empty).1.settlement = .rejected "unreachable" ∧
    (dbConnect (fun n _ => if n = 0 then .failure "unreachable" else .success "shop")
      "mongodb://h/shop"
      (run (fun n _ => if n = 0 then .failure "unreachable" else .success "shop")
        [.call (.string "mongodb://h/shop") .undefined]
        (dbConnect (fun n _ => if n = 0 then .failure "unreachable" else .success "shop")
          "mongodb://h/shop" State.empty).2)).1.settlement = .rejected "unreachable" :=
  ⟨by decide,
    (dbConnect_sticky_failure
      (fun n _ => if n = 0 then .failure "unreachable" else .success "shop")
      "mongodb://h/shop" State.empty "unreachable"
      [.call (.string "mongodb://h/shop") .undefined] (by decide)).2.1⟩

/-! ### The caches only grow -/

theorem ext_connectAwaited (drv : Driver) (rank : Nat → Nat) (x : UriArg) (c : Collections)
    (s : State) : Ext s (connectAwaited drv rank x c s).2 := by
  have h := ext_connect drv x c s
  simp only [connectAwaited]
  cases hc : connect drv x c s with
  | mk o s1 =>
    rw [hc] at h
    cases o with
    | threw e => exact h
    | returned r => exact Ext.trans h (ext_await rank r s1)

theorem CachesKept.of_ext {s t : State} (h : Ext s t) : CachesKept s t :=
  ⟨h.1, h.2.1⟩

/-- C9: every operation of the module keeps both caches: each key bound before the operation is
bound to the same value after it, whether the state is taken when the call returns or when the
promise it returned has settled. This holds for `dbConnect`, `dbConnectMany`,
`getCollectionsByArray`, `getCollectionsByObject`, `getCollections`,
`dbConnectManyAndGetCollections`, `connect`, and for every sequence of calls and settlements. -/
theorem caches_only_grow (drv : Driver) (s : State) :
    (∀ u, CachesKept s (dbConnect drv u s).2) ∧
    (∀ uris rank, CachesKept s (dbConnectMany drv uris s).2 ∧
      CachesKept s (promiseAll rank (dbConnectMany drv uris s).1 (dbConnectMany drv uris s).2).2) ∧
    (∀ u names, CachesKept s (getCollectionsByArray drv u names s).2 ∧
      CachesKept s (settleSingle (getCollectionsByArray drv u names s).1
        (getCollectionsByArray drv u names s).2).2) ∧
    (∀ u aliases, CachesKept s (getCollectionsByObject drv u aliases s).2 ∧
      CachesKept s (settleSingle (getCollectionsByObject drv u aliases s).1
        (getCollectionsByObject drv u aliases s).2).2) ∧
    (∀ u c, CachesKept s (getCollections drv u c s).2 ∧
      CachesKept s (getCollectionsAwaited drv u c s).2) ∧
    (∀ m rank, CachesKept s (dbConnectManyAndGetCollections drv m s).2 ∧
      CachesKept s (connectAwaited drv rank (.object m) .undefined s).2) ∧
    (∀ x c rank, CachesKept s (connect drv x c s).2 ∧
      CachesKept s (connectAwaited drv rank x c s).2) ∧
    (∀ steps, CachesKept s (run drv steps s)) := by
  refine ⟨fun u => .of_ext (ext_dbConnect drv u s), fun uris rank => ⟨?_, ?_⟩,
    fun u names => ⟨?_, ?_⟩, fun u aliases => ⟨?_, ?_⟩,
    fun u c => ⟨.of_ext (ext_getCollections drv u c s),
      .of_ext (ext_getCollectionsAwaited drv u c s)⟩,
    fun m rank => ⟨.of_ext (ext_mapGetCollections drv m (objKeys m) s),
      .of_ext (ext_connectAwaited drv rank (.object m) .undefined s)⟩,
    fun x c rank => ⟨.of_ext (ext_connect drv x c s),
      .of_ext (ext_connectAwaited drv rank x c s)⟩,
    fun steps => .of_ext (ext_run drv steps s)⟩
  · exact .of_ext (ext_mapDbConnect drv uris s)
  · exact .of_ext (Ext.trans (ext_mapDbConnect drv uris s) (ext_promiseAll rank _ _))
  · exact .of_ext (ext_dbConnect drv u s)
  · exact .of_ext (Ext.trans (ext_dbConnect drv u s) (ext_settleSingle _ _))
  · exact .of_ext (ext_dbConnect drv u s)
  · exact .of_ext (Ext.trans (ext_dbConnect drv u s) (ext_settleSingle _ _))

/-! ### What the callbacks return -/

theorem getCollectionsAwaited_rejected (drv : Driver) (u : String) (c : Collections)
    (s : State) (e : String) (hfail : (dbConnect drv u s).1.settlement = .rejected e)
    (hshape : (∃ names, c = .array names) ∨ (∃ m, c = .object m)) :
    getCollectionsAwaited drv u c s = (.returned (.rejected e), (dbConnect drv u s).2) := by
  rcases hshape with ⟨names, rfl⟩ | ⟨m, rfl⟩
  · simp [getCollectionsAwaited, getCollections, Collections.ctor, getCollectionsByArray,
      settleSingle, hfail]
  · simp [getCollectionsAwaited, getCollections, Collections.ctor, getCollectionsByObject,
      settleSingle, hfail]

/-- C5, the code at the failing input: after collection `bc` of database `a` has been requested,
a request for collection `c` of database `ab` finds the key `abc` in the cache, invokes no
collection lookup and is fulfilled with the handle of collection `bc` of database `a`. -/
theorem collection_key_collision :
    getCollectionsAwaited exampleDriver "mongodb://h/ab" (.array ["c"]) afterFirstRequest =
      (.returned (.resolved (.list
        [{ ident := 0, db := { ident := 0, databaseName := "a" }, collectionName := "bc" }])),
       { dbConnections :=
           [("mongodb://h/a",
              { ident := 0, settlement := .fulfilled { ident := 0, databaseName := "a" } }),
            ("mongodb://h/ab",
              { ident := 1, settlement := .fulfilled { ident := 1, databaseName := "ab" } })]
         dbCollections :=
           [("abc",
              { ident := 0, db := { ident := 0, databaseName := "a" }, collectionName := "bc" })]
         connectCalls := ["mongodb://h/a", "mongodb://h/ab"]
         collectionCalls := [({ ident := 0, databaseName := "a" }, "bc")] }) := by
  decide

/-! ### The dispatcher -/

/-- C10 as stated fails: `null` is neither a plain object nor an array, and
`getCollections(u, null)` throws instead of returning `undefined`, while `connect(u, null)`
returns a promise and invokes the driver's connect. -/
theorem getCollections_null_throws :
    (getCollections exampleDriver "mongodb://h/shop" .null State.empty).1 ≠ .returned none ∧
    (connect exampleDriver (.string "mongodb://h/shop") .null State.empty).1 ≠
      .returned .undefined ∧
    (connect exampleDriver (.string "mongodb://h/shop") .null State.empty).2.connectCalls =
      ["mongodb://h/shop"] ∧
    (connect exampleDriver (.string "mongodb://h/shop") .null State.empty).2 ≠ State.empty := by
  decide

/-- C10, amended: for a `collections` argument that is neither a plain object nor an array, and
not `undefined` or `null`, `getCollections(u, collections)` returns `undefined` and leaves the
state (both caches and the record of driver invocations) as it is; when the argument is also
truthy, so does `connect(u, collections)`. -/
theorem getCollections_other_shape (drv : Driver) (u : String) (c : Collections) (s : State)
    (harr : ∀ names, c ≠ .array names) (hobj : ∀ m, c ≠ .object m)
    (hundef : c ≠ .undefined) (hnull : c ≠ .null) :
    getCollections drv u c s = (.returned none, s) ∧
    (c.truthy = true → connect drv (.string u) c s = (.returned .undefined, s)) := by
  have hget : getCollections drv u c s = (.returned none, s) := by
    cases c with
    | undefined => exact absurd rfl hundef
    | null => exact absurd rfl hnull
    | array names => exact absurd rfl (harr names)
    | object m => exact absurd rfl (hobj m)
    | boolean b => rfl
    | number n => rfl
    | string x => rfl
    | foreign x => rfl
  refine ⟨hget, fun ht => ?_⟩
  simp [connect, ht, hget, Returned.ofOption]

/-- Witness of C10, amended: a single collection name given as a string. -/
theorem getCollections_other_shape_witness :
    getCollections exampleDriver "mongodb://h/shop" (.string "users") State.empty =
        (.returned none, State.empty) ∧
    connect exampleDriver (.string "mongodb://h/shop") (.string "users") State.empty =
        (.returned .undefined, State.empty) :=
  ⟨(getCollections_other_shape exampleDriver "mongodb://h/shop" (.string "users") State.empty
      (fun _ h => by cases h) (fun _ h => by cases h) (fun h => by cases h)
      (fun h => by cases h)).1,
    (getCollections_other_shape exampleDriver "mongodb://h/shop" (.string "users") State.empty
      (fun _ h => by cases h) (fun _ h => by cases h) (fun h => by cases h)
      (fun h => by cases h)).2 rfl⟩

/-! ### `Promise.all` -/

end MongoClientConnect
